import Mathlib

/-!
Shallow embedding of the 2D ray-optics core of `src/main.rs` (the `beams`
repository).  `f32` arithmetic is modelled by exact real arithmetic; an
`f32` value that the Rust code leaves as NaN (the direction built from
`asin` of an out-of-range argument) is modelled by `Option`, with `none`
standing for the NaN value.  `intersect`'s `+∞` no-hit sentinel is
modelled by `Option ℝ` with `none` standing for `+∞`.
-/

namespace Beams

/-- A 2D vector with real components, modelling `glam::Vec2` (`f32` pairs). -/
structure Vec2 where
  x : ℝ
  y : ℝ

def Vec2.add (a b : Vec2) : Vec2 := ⟨a.x + b.x, a.y + b.y⟩

def Vec2.sub (a b : Vec2) : Vec2 := ⟨a.x - b.x, a.y - b.y⟩

def Vec2.neg (a : Vec2) : Vec2 := ⟨-a.x, -a.y⟩

def Vec2.smul (c : ℝ) (a : Vec2) : Vec2 := ⟨c * a.x, c * a.y⟩

instance : Add Vec2 := ⟨Vec2.add⟩

instance : Sub Vec2 := ⟨Vec2.sub⟩

instance : Neg Vec2 := ⟨Vec2.neg⟩

instance : SMul ℝ Vec2 := ⟨Vec2.smul⟩

@[simp] theorem Vec2.add_x (a b : Vec2) : (a + b).x = a.x + b.x := rfl

@[simp] theorem Vec2.add_y (a b : Vec2) : (a + b).y = a.y + b.y := rfl

@[simp] theorem Vec2.sub_x (a b : Vec2) : (a - b).x = a.x - b.x := rfl

@[simp] theorem Vec2.sub_y (a b : Vec2) : (a - b).y = a.y - b.y := rfl

@[simp] theorem Vec2.neg_x (a : Vec2) : (-a).x = -a.x := rfl

@[simp] theorem Vec2.neg_y (a : Vec2) : (-a).y = -a.y := rfl

@[simp] theorem Vec2.smul_x (c : ℝ) (a : Vec2) : (c • a).x = c * a.x := rfl

@[simp] theorem Vec2.smul_y (c : ℝ) (a : Vec2) : (c • a).y = c * a.y := rfl

@[ext] theorem Vec2.ext_xy {a b : Vec2} (hx : a.x = b.x) (hy : a.y = b.y) : a = b := by
  cases a; cases b; cases hx; cases hy; rfl

/-- Embeds `glam` `Vec2::dot`. -/
def Vec2.dot (a b : Vec2) : ℝ := a.x * b.x + a.y * b.y

/-- Embeds `glam` `Vec2::perp_dot`: the 2D cross product `self.x*rhs.y - self.y*rhs.x`. -/
def Vec2.perpDot (a b : Vec2) : ℝ := a.x * b.y - a.y * b.x

/-- Embeds `glam` `Vec2::perp`: counter-clockwise rotation by 90 degrees. -/
def Vec2.perp (a : Vec2) : Vec2 := ⟨-a.y, a.x⟩

/-- Embeds `glam` `Vec2::length`. -/
noncomputable def Vec2.len (a : Vec2) : ℝ := Real.sqrt (a.x ^ 2 + a.y ^ 2)

/-- Embeds `glam` `Vec2::normalize`: `self / self.length()`. -/
noncomputable def Vec2.normalize (a : Vec2) : Vec2 := ⟨a.x / a.len, a.y / a.len⟩

/-- Embeds `glam` `Vec2::from_angle`: `(cos θ, sin θ)`. -/
noncomputable def Vec2.fromAngle (θ : ℝ) : Vec2 := ⟨Real.cos θ, Real.sin θ⟩

/-- Embeds `glam` `Vec2::angle_between`: `atan2(perp_dot, dot)`, modelled through
`Complex.arg` (`atan2 y x = arg (x + y i)`). -/
noncomputable def Vec2.angleBetween (a b : Vec2) : ℝ := Complex.arg ⟨a.dot b, a.perpDot b⟩

/-- Embeds `cross2` from `main.rs`: `a[0]*b[1] - b[0]*a[1]`. -/
def cross2 (a b : Vec2) : ℝ := a.x * b.y - b.x * a.y

/-- Embeds `Ray` from `main.rs`: origin `p`, direction `l`, intensity `i`,
medium refractive index `index`, wavelength `w`. -/
structure Ray where
  p : Vec2
  l : Vec2
  i : ℝ
  index : ℝ
  w : ℝ

/-- Embeds `Ray::new`: intensity `1.0`, wavelength `532`. -/
def Ray.new (p l : Vec2) (index : ℝ) : Ray := ⟨p, l, 1.0, index, 532⟩

/-- Embeds `Surface` from `main.rs`. -/
structure Surface where
  p1 : Vec2
  p2 : Vec2
  dp : Vec2
  normal : Vec2
  length : ℝ
  index : ℝ
  reflection : ℝ
  absorption : ℝ

/-- Embeds `Surface::glass`. -/
noncomputable def Surface.glass (p1 p2 : Vec2) (index : ℝ) : Surface :=
  ⟨p1, p2, p2 - p1, ((p2 - p1).normalize).perp, (p2 - p1).len, index, 0.0, 0.0⟩

/-- Embeds `Surface::blocker`. -/
noncomputable def Surface.blocker (p1 p2 : Vec2) : Surface :=
  ⟨p1, p2, p2 - p1, ((p2 - p1).normalize).perp, (p2 - p1).len, 1.0, 0.0, 1.0⟩

/-- The denominator `v2 · perp(ray.l)` of the intersection formulas
(`dot` in the source). -/
def denom (ray : Ray) (surface : Surface) : ℝ :=
  (surface.p2 - surface.p1).dot ⟨-ray.l.y, ray.l.x⟩

/-- The ray parameter `t1 = cross(v2, v1) / denom` of the source. -/
noncomputable def rayParam (ray : Ray) (surface : Surface) : ℝ :=
  (surface.p2 - surface.p1).perpDot (ray.p - surface.p1) / denom ray surface

/-- The segment parameter `t2 = (v1 · v3) / denom` of the source. -/
noncomputable def segParam (ray : Ray) (surface : Surface) : ℝ :=
  (ray.p - surface.p1).dot ⟨-ray.l.y, ray.l.x⟩ / denom ray surface

/-- Embeds `intersect` from `main.rs`.  `none` models the `f32::INFINITY` no-hit
sentinel; `some t` models a finite return value `t`. -/
noncomputable def intersect (ray : Ray) (surface : Surface) : Option ℝ :=
  let v1 := ray.p - surface.p1
  let v2 := surface.p2 - surface.p1
  let v3 : Vec2 := ⟨-ray.l.y, ray.l.x⟩
  let dot := v2.dot v3
  if |dot| < 0.000001 then
    none
  else
    let cross := v2.perpDot v1
    let t1 := cross / dot
    let t2 := v1.dot v3 / dot
    if 0 ≤ t1 ∧ (0 ≤ t2 ∧ t2 ≤ 1) then some t1 else none

/-- Embeds `f32::asin`: `some (arcsin x)` on `[-1, 1]`, `none` (NaN) outside. -/
noncomputable def asinOpt (x : ℝ) : Option ℝ :=
  if -1 ≤ x ∧ x ≤ 1 then some (Real.arcsin x) else none

/-- The normal chosen by `raycast_system`:
`if surface.normal.angle_between(ray.l) > surface.normal.angle_between(ray.l)
 then surface.normal else -1. * surface.normal`. -/
noncomputable def orientedNormal (surface : Surface) (ray : Ray) : Vec2 :=
  if surface.normal.angleBetween ray.l > surface.normal.angleBetween ray.l then
    surface.normal
  else
    (-1 : ℝ) • surface.normal

/-- The argument of `asin` in `raycast_system`:
`(ray.index * normal.perp_dot(ray.l)) / surface.index`. -/
noncomputable def refractedSine (ray : Ray) (surface : Surface) : ℝ :=
  ray.index * (orientedNormal surface ray).perpDot ray.l / surface.index

/-- A ray pushed into `tree.branches`.  Same fields as `Ray`, except that
the direction (`Vec2::from_angle(refracted).normalize()`) is `Option Vec2`,
with `none` standing for the NaN vector obtained when `refracted` is NaN. -/
structure ChildRay where
  p : Vec2
  l : Option Vec2
  i : ℝ
  index : ℝ
  w : ℝ

/-- Embeds `Ray::new` as used for the pushed child ray. -/
def ChildRay.new (p : Vec2) (l : Option Vec2) (index : ℝ) : ChildRay :=
  ⟨p, l, 1.0, index, 532⟩

/-- The child ray pushed for a hit at parameter `d` on a non-absorbing
surface:
`Ray::new(ray.p + ray.l * d, Vec2::from_angle(refracted).normalize(), surface.index)`. -/
noncomputable def childOf (ray : Ray) (surface : Surface) (d : ℝ) : ChildRay :=
  ChildRay.new (ray.p + d • ray.l)
    ((asinOpt (refractedSine ray surface)).map fun θ => (Vec2.fromAngle θ).normalize)
    surface.index

/-- The `'surfaces` loop of `raycast_system`: scan the surfaces in
iteration order and stop at the first one with `intersect` finite and
`> 0.1`, returning it with its parameter. -/
noncomputable def findHit (ray : Ray) : List Surface → Option (Surface × ℝ)
  | [] => none
  | s :: rest =>
    match intersect ray s with
    | some d => if d > 0.1 then some (s, d) else findHit ray rest
    | none => findHit ray rest

/-- The branch list produced by one `RaycastEvent`: empty when no surface
qualifies or the struck surface has `absorption ≥ 1`, else the single
refracted child. -/
noncomputable def raycastStep (ray : Ray) (surfaces : List Surface) : List ChildRay :=
  match findHit ray surfaces with
  | none => []
  | some (s, d) => if s.absorption < 1 then [childOf ray s d] else []

/-- Embeds `RayTree` from `main.rs`: a root ray plus its branch sequence
(branches hold possibly-NaN directions, see `ChildRay`). -/
structure RayTree where
  root : Ray
  branches : List ChildRay

/-- The tree built by `raycast_system` for one event:
`RayTree::new(ray)` followed by the `'surfaces` loop. -/
noncomputable def buildTree (ray : Ray) (surfaces : List Surface) : RayTree :=
  ⟨ray, raycastStep ray surfaces⟩

/-- Embeds `BeamSource` from `main.rs`. -/
structure BeamSource where
  pos : Vec2
  direction : Vec2
  waist : ℝ
  w : ℝ
  index : ℝ

/-- Embeds `BeamSource::new`. -/
def BeamSource.new (pos direction : Vec2) (waist : ℝ) : BeamSource :=
  ⟨pos, direction, waist, 532, 1.0⟩

/-- Embeds `RAY_DENSITY` from `main.rs`. -/
def rayDensity : ℝ := 0.2

/-- Embeds `itertools_num::linspace(a, b, n)`: `n` evenly spaced values from `a`
to `b` inclusive. -/
noncomputable def linspace (a b : ℝ) (n : ℕ) : List ℝ :=
  (List.range n).map fun i => a + (i : ℝ) * ((b - a) / ((n : ℝ) - 1))

/-- The beam spawned by `setup_system`. -/
noncomputable def beam : BeamSource :=
  BeamSource.new ⟨200, 650⟩ (Vec2.normalize ⟨1, -0.02⟩) 10

/-- The root rays emitted by `setup_system`: one per sample of `linspace`
across the waist, offset transverse to the beam direction. -/
noncomputable def rootRays : List Ray :=
  (linspace (-beam.waist / 2) (beam.waist / 2) ⌊beam.waist * rayDensity⌋₊).map fun x =>
    Ray.new (beam.pos + x • Vec2.mk (-beam.direction.y) beam.direction.x) beam.direction 1.0

/-! ### Concrete rays and surfaces used to exercise the system -/

/-- A ray from the origin along the positive x axis in vacuum. -/
noncomputable def ray0 : Ray := Ray.new ⟨0, 0⟩ ⟨1, 0⟩ 1.0

/-- A ray from `(10, 0)` along the negative x axis in vacuum. -/
noncomputable def rayBack : Ray := Ray.new ⟨10, 0⟩ ⟨-1, 0⟩ 1.0

/-- A ray from the origin along `(0.6, 0.8)` in vacuum. -/
noncomputable def rayDiag : Ray := Ray.new ⟨0, 0⟩ ⟨0.6, 0.8⟩ 1.0

/-- A ray from the origin along `(0.6, -0.8)` in vacuum. -/
noncomputable def rayDown : Ray := Ray.new ⟨0, 0⟩ ⟨0.6, -0.8⟩ 1.0

/-- Vertical glass surface at `x = 2`, refractive index `1.5`. -/
noncomputable def sGlass2 : Surface :=
  ⟨⟨2, -10⟩, ⟨2, 10⟩, ⟨0, 20⟩, ⟨-1, 0⟩, 20, 1.5, 0.0, 0.0⟩

/-- Vertical glass surface at `x = 4`, refractive index `1.0`. -/
noncomputable def sGlass4 : Surface :=
  ⟨⟨4, -10⟩, ⟨4, 10⟩, ⟨0, 20⟩, ⟨-1, 0⟩, 20, 1.0, 0.0, 0.0⟩

/-- Vertical glass surface at `x = 5`, refractive index `1.5`. -/
noncomputable def sFar5 : Surface :=
  ⟨⟨5, -10⟩, ⟨5, 10⟩, ⟨0, 20⟩, ⟨-1, 0⟩, 20, 1.5, 0.0, 0.0⟩

/-- Vertical fully absorbing surface at `x = 1`. -/
noncomputable def sBlock1 : Surface :=
  ⟨⟨1, -1⟩, ⟨1, 1⟩, ⟨0, 2⟩, ⟨-1, 0⟩, 2, 1.0, 0.0, 1.0⟩

/-- Horizontal surface along `y = 0`, parallel to `ray0`. -/
noncomputable def sPar : Surface :=
  ⟨⟨0, 0⟩, ⟨10, 0⟩, ⟨10, 0⟩, ⟨0, 1⟩, 10, 1.0, 0.0, 0.0⟩

/-- Vertical surface at `x = 3` spanning `y ∈ [0, 10]`, index `0.5`. -/
noncomputable def sHalf : Surface :=
  ⟨⟨3, 0⟩, ⟨3, 10⟩, ⟨0, 10⟩, ⟨-1, 0⟩, 10, 0.5, 0.0, 0.0⟩

/-- Vertical surface at `x = 3` spanning `y ∈ [-10, 10]`, index `2`. -/
noncomputable def sTwo : Surface :=
  ⟨⟨3, -10⟩, ⟨3, 10⟩, ⟨0, 20⟩, ⟨-1, 0⟩, 20, 2.0, 0.0, 0.0⟩

/-! ### Basic lemmas about the embedding -/

theorem intersect_eq (ray : Ray) (surface : Surface) :
    intersect ray surface =
      if |denom ray surface| < 0.000001 then none
      else if 0 ≤ rayParam ray surface ∧
          (0 ≤ segParam ray surface ∧ segParam ray surface ≤ 1) then
        some (rayParam ray surface)
      else none := rfl

theorem orientedNormal_eq (surface : Surface) (ray : Ray) :
    orientedNormal surface ray = (-1 : ℝ) • surface.normal := by
  unfold orientedNormal
  exact if_neg (lt_irrefl _)

theorem Vec2.len_fromAngle (θ : ℝ) : (Vec2.fromAngle θ).len = 1 := by
  unfold Vec2.fromAngle Vec2.len
  simp only
  rw [Real.cos_sq_add_sin_sq θ, Real.sqrt_one]

theorem Vec2.sq_add_sq_pos {a : Vec2} (h : ¬(a.x = 0 ∧ a.y = 0)) :
    0 < a.x ^ 2 + a.y ^ 2 := by
  rcases not_and_or.mp h with hx | hy
  · have := pow_pos (abs_pos.mpr hx) 2
    nlinarith [sq_nonneg a.y, sq_abs a.x]
  · have := pow_pos (abs_pos.mpr hy) 2
    nlinarith [sq_nonneg a.x, sq_abs a.y]

theorem Vec2.len_normalize {a : Vec2} (h : ¬(a.x = 0 ∧ a.y = 0)) :
    a.normalize.len = 1 := by
  have hpos : 0 < a.x ^ 2 + a.y ^ 2 := Vec2.sq_add_sq_pos h
  simp only [Vec2.normalize, Vec2.len]
  rw [div_pow, div_pow, div_add_div_same, Real.sq_sqrt hpos.le,
    div_self hpos.ne.symm, Real.sqrt_one]

/-- Scalar form of the line-line intersection identity: multiplying out
the two parameter formulas recovers the same point on both lines. -/
theorem line_param_identity (px py lx ly ax ay bx bY D : ℝ) (hD : D ≠ 0)
    (hDdef : D = (bx - ax) * (-ly) + (bY - ay) * lx) :
    px + ((bx - ax) * (py - ay) - (bY - ay) * (px - ax)) / D * lx =
        ax + ((px - ax) * (-ly) + (py - ay) * lx) / D * (bx - ax) ∧
      py + ((bx - ax) * (py - ay) - (bY - ay) * (px - ax)) / D * ly =
        ay + ((px - ax) * (-ly) + (py - ay) * lx) / D * (bY - ay) := by
  subst hDdef
  constructor <;>
    (rw [div_mul_eq_mul_div, div_mul_eq_mul_div, add_div' _ _ _ hD, add_div' _ _ _ hD,
      div_eq_div_iff hD hD]; ring)

/-- Exactness of the intersection formulas: away from the degenerate
denominator, the ray point at `rayParam` coincides with the segment point
at `segParam`. -/
theorem hit_point_eq (ray : Ray) (surface : Surface) (h : denom ray surface ≠ 0) :
    ray.p + rayParam ray surface • ray.l =
      surface.p1 + segParam ray surface • (surface.p2 - surface.p1) := by
  have hDdef : denom ray surface =
      (surface.p2.x - surface.p1.x) * (-ray.l.y) +
        (surface.p2.y - surface.p1.y) * ray.l.x := by
    simp [denom, Vec2.dot]
  have key := line_param_identity ray.p.x ray.p.y ray.l.x ray.l.y
    surface.p1.x surface.p1.y surface.p2.x surface.p2.y (denom ray surface) h hDdef
  have hray : rayParam ray surface =
      ((surface.p2.x - surface.p1.x) * (ray.p.y - surface.p1.y) -
        (surface.p2.y - surface.p1.y) * (ray.p.x - surface.p1.x)) / denom ray surface := by
    simp [rayParam, Vec2.perpDot]
  have hseg : segParam ray surface =
      ((ray.p.x - surface.p1.x) * (-ray.l.y) +
        (ray.p.y - surface.p1.y) * ray.l.x) / denom ray surface := by
    simp [segParam, Vec2.dot]
  apply Vec2.ext_xy
  · simpa only [Vec2.add_x, Vec2.smul_x, Vec2.sub_x, hray, hseg] using key.1
  · simpa only [Vec2.add_y, Vec2.smul_y, Vec2.sub_y, hray, hseg] using key.2

/-! ### Evaluation lemmas on the concrete scenes -/

theorem intersect_ray0_sGlass2 : intersect ray0 sGlass2 = some 2 := by
  rw [intersect_eq]
  norm_num [denom, rayParam, segParam, Vec2.dot, Vec2.perpDot, ray0, sGlass2, Ray.new]

theorem intersect_ray0_sGlass4 : intersect ray0 sGlass4 = some 4 := by
  rw [intersect_eq]
  norm_num [denom, rayParam, segParam, Vec2.dot, Vec2.perpDot, ray0, sGlass4, Ray.new]

theorem intersect_ray0_sFar5 : intersect ray0 sFar5 = some 5 := by
  rw [intersect_eq]
  norm_num [denom, rayParam, segParam, Vec2.dot, Vec2.perpDot, ray0, sFar5, Ray.new]

theorem intersect_ray0_sBlock1 : intersect ray0 sBlock1 = some 1 := by
  rw [intersect_eq]
  norm_num [denom, rayParam, segParam, Vec2.dot, Vec2.perpDot, ray0, sBlock1, Ray.new]

theorem intersect_cont_sGlass4 : intersect (Ray.new ⟨2, 0⟩ ⟨1, 0⟩ 1.5) sGlass4 = some 2 := by
  rw [intersect_eq]
  norm_num [denom, rayParam, segParam, Vec2.dot, Vec2.perpDot, sGlass4, Ray.new]

theorem intersect_rayDiag_sHalf : intersect rayDiag sHalf = some 5 := by
  rw [intersect_eq]
  norm_num [denom, rayParam, segParam, Vec2.dot, Vec2.perpDot, rayDiag, sHalf, Ray.new]

theorem intersect_rayDown_sTwo : intersect rayDown sTwo = some 5 := by
  rw [intersect_eq]
  norm_num [denom, rayParam, segParam, Vec2.dot, Vec2.perpDot, rayDown, sTwo, Ray.new]

theorem findHit_ray0_chain : findHit ray0 [sGlass2, sGlass4] = some (sGlass2, 2) := by
  rw [findHit, intersect_ray0_sGlass2]
  norm_num

theorem findHit_ray0_firstOrder : findHit ray0 [sFar5, sGlass2] = some (sFar5, 5) := by
  rw [findHit, intersect_ray0_sFar5]
  norm_num

theorem findHit_ray0_sBlock1 : findHit ray0 [sBlock1] = some (sBlock1, 1) := by
  rw [findHit, intersect_ray0_sBlock1]
  norm_num

theorem findHit_rayDiag_sHalf : findHit rayDiag [sHalf] = some (sHalf, 5) := by
  rw [findHit, intersect_rayDiag_sHalf]
  norm_num

theorem findHit_rayDown_sTwo : findHit rayDown [sTwo] = some (sTwo, 5) := by
  rw [findHit, intersect_rayDown_sTwo]
  norm_num

theorem refractedSine_ray0_sGlass2 : refractedSine ray0 sGlass2 = 0 := by
  rw [refractedSine, orientedNormal_eq]
  norm_num [Vec2.perpDot, ray0, sGlass2, Ray.new]

theorem refractedSine_rayDiag_sHalf : refractedSine rayDiag sHalf = 8 / 5 := by
  rw [refractedSine, orientedNormal_eq]
  norm_num [Vec2.perpDot, rayDiag, sHalf, Ray.new]

theorem refractedSine_rayDown_sTwo : refractedSine rayDown sTwo = -(2 / 5) := by
  rw [refractedSine, orientedNormal_eq]
  norm_num [Vec2.perpDot, rayDown, sTwo, Ray.new]

/-! ### Structural lemmas about the tree builder -/

theorem raycastStep_of_findHit {ray : Ray} {surfaces : List Surface} {s : Surface} {d : ℝ}
    (hfind : findHit ray surfaces = some (s, d)) :
    raycastStep ray surfaces = if s.absorption < 1 then [childOf ray s d] else [] := by
  rw [raycastStep, hfind]

theorem raycastStep_of_no_hit {ray : Ray} {surfaces : List Surface}
    (hfind : findHit ray surfaces = none) : raycastStep ray surfaces = [] := by
  rw [raycastStep, hfind]

/-- Every branch of a built tree comes from the first qualifying surface of
the scan, is the refracted child for it, and requires `absorption < 1`. -/
theorem mem_branches {ray : Ray} {surfaces : List Surface} {c : ChildRay}
    (hc : c ∈ (buildTree ray surfaces).branches) :
    ∃ s d, findHit ray surfaces = some (s, d) ∧ s.absorption < 1 ∧ c = childOf ray s d := by
  have hc' : c ∈ raycastStep ray surfaces := hc
  cases hfind : findHit ray surfaces with
  | none =>
    rw [raycastStep_of_no_hit hfind] at hc'
    simp at hc'
  | some sd =>
    obtain ⟨s, d⟩ := sd
    rw [raycastStep_of_findHit hfind] at hc'
    by_cases habs : s.absorption < 1
    · rw [if_pos habs] at hc'
      simp only [List.mem_singleton] at hc'
      exact ⟨s, d, rfl, habs, hc'⟩
    · rw [if_neg habs] at hc'
      simp at hc'

theorem normalize_fromAngle_len (θ : ℝ) : (Vec2.fromAngle θ).normalize.len = 1 := by
  apply Vec2.len_normalize
  rintro ⟨hc, hs⟩
  have h1 := Real.sin_sq_add_cos_sq θ
  simp only [Vec2.fromAngle] at hc hs
  rw [hc, hs] at h1
  norm_num at h1

/-- Whenever the pushed child carries a direction at all (the refracted
sine was in `asin`'s domain), that direction has length exactly `1`. -/
theorem childOf_l_unit {ray : Ray} {surface : Surface} {d : ℝ} {dir : Vec2}
    (h : (childOf ray surface d).l = some dir) : dir.len = 1 := by
  unfold childOf ChildRay.new at h
  simp only [Option.map_eq_some'] at h
  obtain ⟨θ, _, hdir⟩ := h
  rw [← hdir]
  exact normalize_fromAngle_len θ

theorem childOf_i {ray : Ray} {surface : Surface} {d : ℝ} :
    (childOf ray surface d).i = 1 := by
  norm_num [childOf, ChildRay.new]

theorem mem_rootRays {r : Ray} (hr : r ∈ rootRays) :
    r.l = beam.direction ∧ r.i = 1 := by
  unfold rootRays at hr
  rcases List.mem_map.mp hr with ⟨x, _, hx⟩
  rw [← hx]
  exact ⟨rfl, by norm_num [Ray.new]⟩

theorem beam_direction_len : beam.direction.len = 1 := by
  show (Vec2.normalize ⟨1, -0.02⟩).len = 1
  apply Vec2.len_normalize
  rintro ⟨h1, -⟩
  norm_num at h1

/-- Full evaluation of the tree built for `ray0` against the two-glass
scene: a single branch, refracted straight through the first surface. -/
theorem branches_ray0_chain :
    (buildTree ray0 [sGlass2, sGlass4]).branches =
      [ChildRay.new ⟨2, 0⟩ (some ⟨1, 0⟩) 1.5] := by
  have hasin : asinOpt (0 : ℝ) = some 0 := by
    rw [asinOpt]
    norm_num [Real.arcsin_zero]
  have hnorm : (Vec2.fromAngle 0).normalize = ⟨1, 0⟩ := by
    simp [Vec2.fromAngle, Real.cos_zero, Real.sin_zero, Vec2.normalize, Vec2.len]
  have hstep : (buildTree ray0 [sGlass2, sGlass4]).branches = raycastStep ray0 [sGlass2, sGlass4] := rfl
  rw [hstep, raycastStep_of_findHit findHit_ray0_chain, if_pos (by norm_num [sGlass2])]
  rw [childOf, refractedSine_ray0_sGlass2, hasin]
  simp only [Option.map_some']
  rw [hnorm]
  have hp : ray0.p + (2 : ℝ) • ray0.l = ⟨2, 0⟩ := by
    apply Vec2.ext_xy <;> simp [ray0, Ray.new]
  rw [hp]
  rfl

/-! ### Claim theorems -/

/-- C7: whenever `intersect` returns a finite value `t`, the conditions
`t ≥ 0` and `0 ≤ s ≤ 1` hold for the segment parameter `s`, and the point
`ray.p + t·ray.l` lies within `1e-4` of the segment's parametric point at
`s` (in the exact-arithmetic model they coincide); `intersect` returns the
`+∞` sentinel exactly when the denominator is below the `1e-6` epsilon or
one of those parameter conditions fails. -/
theorem C7_intersect_valid (ray : Ray) (surface : Surface) :
    (∀ t, intersect ray surface = some t →
      0 ≤ t ∧ 0 ≤ segParam ray surface ∧ segParam ray surface ≤ 1 ∧
        ((ray.p + t • ray.l) -
          (surface.p1 + segParam ray surface • (surface.p2 - surface.p1))).len ≤ 0.0001) ∧
    (intersect ray surface = none ↔
      ¬(0.000001 ≤ |denom ray surface| ∧ 0 ≤ rayParam ray surface ∧
        (0 ≤ segParam ray surface ∧ segParam ray surface ≤ 1))) := by
  constructor
  · intro t ht
    rw [intersect_eq] at ht
    by_cases h1 : |denom ray surface| < 0.000001
    · rw [if_pos h1] at ht
      exact absurd ht (by simp)
    · rw [if_neg h1] at ht
      by_cases h2 : 0 ≤ rayParam ray surface ∧
          (0 ≤ segParam ray surface ∧ segParam ray surface ≤ 1)
      · rw [if_pos h2] at ht
        have hden : denom ray surface ≠ 0 := by
          intro h0
          apply h1
          rw [h0]
          norm_num
        have ht' : t = rayParam ray surface := (Option.some.inj ht).symm
        subst ht'
        refine ⟨h2.1, h2.2.1, h2.2.2, ?_⟩
        rw [hit_point_eq ray surface hden]
        have hz : (surface.p1 + segParam ray surface • (surface.p2 - surface.p1)) -
            (surface.p1 + segParam ray surface • (surface.p2 - surface.p1)) =
            (⟨0, 0⟩ : Vec2) := by
          apply Vec2.ext_xy <;> simp
        rw [hz]
        have : (⟨0, 0⟩ : Vec2).len = 0 := by
          simp [Vec2.len]
        rw [this]
        norm_num
      · rw [if_neg h2] at ht
        exact absurd ht (by simp)
  · rw [intersect_eq]
    constructor
    · intro hnone hcond
      rw [if_neg (not_lt.mpr hcond.1), if_pos hcond.2] at hnone
      exact absurd hnone (by simp)
    · intro hcond
      by_cases h1 : |denom ray surface| < 0.000001
      · rw [if_pos h1]
      · rw [if_neg h1]
        by_cases h2 : 0 ≤ rayParam ray surface ∧
            (0 ≤ segParam ray surface ∧ segParam ray surface ≤ 1)
        · exact absurd ⟨not_lt.mp h1, h2⟩ hcond
        · rw [if_neg h2]

/-- C7 witness: the concrete hit of `ray0` on the glass surface at `x = 2`
satisfies all the reported-hit conditions. -/
theorem C7_intersect_valid_witness :
    0 ≤ (2 : ℝ) ∧ 0 ≤ segParam ray0 sGlass2 ∧ segParam ray0 sGlass2 ≤ 1 ∧
      ((ray0.p + (2 : ℝ) • ray0.l) -
        (sGlass2.p1 + segParam ray0 sGlass2 • (sGlass2.p2 - sGlass2.p1))).len ≤ 0.0001 :=
  (C7_intersect_valid ray0 sGlass2).1 2 intersect_ray0_sGlass2

/-- C8: for every ray/segment pair whose denominator `v2·perp(l)` has
absolute value below the `1e-6` epsilon, `intersect` returns the `+∞`
sentinel (`none`); in the embedding `intersect` is a total function into
`Option ℝ`, so `none` is its only error signal. -/
theorem C8_parallel_no_hit (ray : Ray) (surface : Surface)
    (h : |denom ray surface| < 0.000001) : intersect ray surface = none := by
  rw [intersect_eq, if_pos h]

/-- C8 witness: `ray0` runs parallel to the horizontal surface `sPar` and
gets no intersection. -/
theorem C8_parallel_no_hit_witness : intersect ray0 sPar = none :=
  C8_parallel_no_hit ray0 sPar
    (by norm_num [denom, Vec2.dot, ray0, sPar, Ray.new])

/-- C10: the normal-orientation condition in `raycast_system` compares
`surface.normal.angle_between(ray.l)` to itself, so it is always false and
the normal actually used is always `-1 * surface.normal`, independent of
the incoming direction. -/
theorem C10_normal_always_flipped (surface : Surface) (ray : Ray) :
    ¬(surface.normal.angleBetween ray.l > surface.normal.angleBetween ray.l) ∧
      orientedNormal surface ray = (-1 : ℝ) • surface.normal :=
  ⟨lt_irrefl _, orientedNormal_eq surface ray⟩

/-- C2 counterexample: `ray0` strikes `sGlass2` (whose stored normal
`(-1,0)` already faces the ray), yet the chosen normal is the flipped one,
whose dot product with the incoming direction is `1 > 0`, not negative. -/
theorem C2_counterexample :
    intersect ray0 sGlass2 = some 2 ∧
      (orientedNormal sGlass2 ray0).dot ray0.l = 1 ∧
      ¬((orientedNormal sGlass2 ray0).dot ray0.l < 0) := by
  refine ⟨intersect_ray0_sGlass2, ?_, ?_⟩ <;>
    rw [orientedNormal_eq] <;>
    norm_num [Vec2.dot, ray0, sGlass2, Ray.new]

/-- C2 amended: the interaction step always uses `-surface.normal`, so the
dot product of the used normal with `ray.l` is the negation of
`surface.normal·ray.l`; it is negative exactly when `surface.normal·ray.l`
is positive, i.e. when the stored normal points away from the ray. -/
theorem C2_normal_orientation (surface : Surface) (ray : Ray) :
    (orientedNormal surface ray).dot ray.l = -(surface.normal.dot ray.l) ∧
      (0 < surface.normal.dot ray.l → (orientedNormal surface ray).dot ray.l < 0) := by
  have h : (orientedNormal surface ray).dot ray.l = -(surface.normal.dot ray.l) := by
    rw [orientedNormal_eq]
    simp [Vec2.dot]
    ring
  exact ⟨h, fun hpos => by rw [h]; linarith⟩

/-- C2 witness: for `rayBack` travelling along `(-1,0)` against `sGlass2`
(stored normal `(-1,0)`, so `normal·l = 1 > 0`), the used normal does face
the ray. -/
theorem C2_normal_orientation_witness :
    (orientedNormal sGlass2 rayBack).dot rayBack.l < 0 :=
  (C2_normal_orientation sGlass2 rayBack).2
    (by norm_num [Vec2.dot, rayBack, sGlass2, Ray.new])

/-- C1 counterexample: against the scene `[sFar5, sGlass2]`, `ray0` has a
qualifying intersection at `t = 2` with the later-declared `sGlass2`, yet
the search returns the first-declared `sFar5` with the larger `t = 5`, so
it does not select the surface minimizing `t`. -/
theorem C1_counterexample :
    findHit ray0 [sFar5, sGlass2] = some (sFar5, 5) ∧
      intersect ray0 sGlass2 = some 2 ∧ (2 : ℝ) > 0.1 ∧ ¬((5 : ℝ) ≤ 2) :=
  ⟨findHit_ray0_firstOrder, intersect_ray0_sGlass2, by norm_num, by norm_num⟩

/-- C1 amended: the search scans the surfaces in iteration order and
returns the first one whose intersection is finite and above the `0.1`
floor, regardless of whether a later surface has a smaller `t`; in
particular ties also go to the first-declared surface. -/
theorem C1_first_hit (ray : Ray) (s : Surface) (rest : List Surface) :
    findHit ray ([] : List Surface) = none ∧
      (∀ d, intersect ray s = some d → d > 0.1 →
        findHit ray (s :: rest) = some (s, d)) ∧
      (intersect ray s = none → findHit ray (s :: rest) = findHit ray rest) ∧
      (∀ d, intersect ray s = some d → ¬(d > 0.1) →
        findHit ray (s :: rest) = findHit ray rest) := by
  refine ⟨rfl, ?_, ?_, ?_⟩
  · intro d hd hgt
    rw [findHit, hd]
    exact if_pos hgt
  · intro hd
    rw [findHit, hd]
  · intro d hd hle
    rw [findHit, hd]
    exact if_neg hle

/-- C1 witness: on the scene `[sFar5, sGlass2]` the first-declared
`sFar5` wins with its own parameter `5`. -/
theorem C1_first_hit_witness : findHit ray0 [sFar5, sGlass2] = some (sFar5, 5) :=
  (C1_first_hit ray0 sFar5 [sGlass2]).2.1 5 intersect_ray0_sFar5 (by norm_num)

/-- C6: when the struck surface has `absorption ≥ 1`, no child ray is
produced and the branch is closed with zero children, regardless of the
incidence angle. -/
theorem C6_absorber_terminates (ray : Ray) (surfaces : List Surface)
    (s : Surface) (d : ℝ) (hfind : findHit ray surfaces = some (s, d))
    (habs : 1 ≤ s.absorption) : (buildTree ray surfaces).branches = [] := by
  show raycastStep ray surfaces = []
  rw [raycastStep_of_findHit hfind, if_neg (not_lt.mpr habs)]

/-- C6 witness: `ray0` against the fully absorbing `sBlock1` yields a tree
with zero children. -/
theorem C6_absorber_terminates_witness : (buildTree ray0 [sBlock1]).branches = [] :=
  C6_absorber_terminates ray0 [sBlock1] sBlock1 1 findHit_ray0_sBlock1
    (by norm_num [sBlock1])

/-- C9: every root ray is emitted with intensity `1`, every pushed child
ray has intensity `1` (`Ray::new` resets it), and hence along any branch
chain the intensity is non-increasing: each branch's intensity is at most
the root's. -/
theorem C9_intensity_monotone :
    (∀ r ∈ rootRays, r.i = 1) ∧
      ∀ (ray : Ray) (surfaces : List Surface), ray.i = 1 →
        ∀ c ∈ (buildTree ray surfaces).branches,
          c.i ≤ (buildTree ray surfaces).root.i := by
  constructor
  · intro r hr
    exact (mem_rootRays hr).2
  · intro ray surfaces hroot c hc
    obtain ⟨s, d, -, -, hcdef⟩ := mem_branches hc
    have hci : c.i = 1 := by
      rw [hcdef]
      exact childOf_i
    have hri : (buildTree ray surfaces).root.i = 1 := hroot
    rw [hci, hri]

/-- C9 witness: the single branch of the `ray0` two-glass tree has
intensity at most the root's. -/
theorem C9_intensity_monotone_witness :
    (ChildRay.new ⟨2, 0⟩ (some ⟨1, 0⟩) 1.5).i ≤
      (buildTree ray0 [sGlass2, sGlass4]).root.i :=
  C9_intensity_monotone.2 ray0 [sGlass2, sGlass4]
    (by norm_num [ray0, Ray.new])
    (ChildRay.new ⟨2, 0⟩ (some ⟨1, 0⟩) 1.5)
    (by rw [branches_ray0_chain]; exact List.mem_singleton.mpr rfl)

/-- Full evaluation of the tree built for `rayDiag` against `sHalf`: the
refracted sine is `1.6`, outside `asin`'s domain, so the single pushed
branch carries the NaN (`none`) direction. -/
theorem branches_rayDiag_sHalf :
    (buildTree rayDiag [sHalf]).branches = [ChildRay.new ⟨3, 4⟩ none 0.5] := by
  have hasin : asinOpt (8 / 5 : ℝ) = none := by
    rw [asinOpt, if_neg]
    norm_num
  have hstep : (buildTree rayDiag [sHalf]).branches = raycastStep rayDiag [sHalf] := rfl
  rw [hstep, raycastStep_of_findHit findHit_rayDiag_sHalf, if_pos (by norm_num [sHalf])]
  rw [childOf, refractedSine_rayDiag_sHalf, hasin]
  simp only [Option.map_none']
  have hp : rayDiag.p + (5 : ℝ) • rayDiag.l = ⟨3, 4⟩ := by
    apply Vec2.ext_xy <;> simp [rayDiag, Ray.new] <;> norm_num
  rw [hp]
  rfl

/-- C3 counterexample: the chain for `ray0` against `[sGlass2, sGlass4]`
stops after one branch even though the continuation of that branch (from
`(2,0)` along `(1,0)` in medium `1.5`) still has a finite intersection
above the floor with the non-absorbing `sGlass4` — none of the claimed
stopping conditions holds at that point. -/
theorem C3_counterexample :
    (buildTree ray0 [sGlass2, sGlass4]).branches.length = 1 ∧
      (buildTree ray0 [sGlass2, sGlass4]).branches =
        [ChildRay.new ⟨2, 0⟩ (some ⟨1, 0⟩) 1.5] ∧
      intersect (Ray.new ⟨2, 0⟩ ⟨1, 0⟩ 1.5) sGlass4 = some 2 ∧
      (2 : ℝ) > 0.1 ∧ sGlass4.absorption < 1 := by
  refine ⟨?_, branches_ray0_chain, intersect_cont_sGlass4, by norm_num, by norm_num [sGlass4]⟩
  rw [branches_ray0_chain]
  rfl

/-- C3 amended: per root ray the builder applies the hit search and the
interaction model exactly once — the branch sequence has length at most
one, and the single branch, when present, is the refracted child of the
first qualifying surface, starting at the root's hit point
`ray.p + d • ray.l`.  The iteration never continues into child rays. -/
theorem C3_single_step (ray : Ray) (surfaces : List Surface) :
    (buildTree ray surfaces).branches.length ≤ 1 ∧
      ∀ c ∈ (buildTree ray surfaces).branches,
        ∃ s d, findHit ray surfaces = some (s, d) ∧ s.absorption < 1 ∧
          c.p = ray.p + d • ray.l ∧ c = childOf ray s d := by
  constructor
  · have hstep : (buildTree ray surfaces).branches = raycastStep ray surfaces := rfl
    rw [hstep]
    cases hfind : findHit ray surfaces with
    | none =>
      rw [raycastStep_of_no_hit hfind]
      simp
    | some sd =>
      obtain ⟨s, d⟩ := sd
      rw [raycastStep_of_findHit hfind]
      by_cases habs : s.absorption < 1
      · rw [if_pos habs]
        simp
      · rw [if_neg habs]
        simp
  · intro c hc
    obtain ⟨s, d, hfind, habs, hcdef⟩ := mem_branches hc
    exact ⟨s, d, hfind, habs, by rw [hcdef]; rfl, hcdef⟩

/-- C3 witness: applied to the concrete single branch of the `ray0`
two-glass tree. -/
theorem C3_single_step_witness :
    ∃ s d, findHit ray0 [sGlass2, sGlass4] = some (s, d) ∧ s.absorption < 1 ∧
      (ChildRay.new ⟨2, 0⟩ (some ⟨1, 0⟩) 1.5).p = ray0.p + d • ray0.l ∧
      ChildRay.new ⟨2, 0⟩ (some ⟨1, 0⟩) 1.5 = childOf ray0 s d :=
  (C3_single_step ray0 [sGlass2, sGlass4]).2 _
    (by rw [branches_ray0_chain]; exact List.mem_singleton.mpr rfl)

/-- C4 counterexample: `rayDiag` striking `sHalf` has refracted sine
`1.6 > 1`, and the produced child ray's direction is the NaN vector
(`none` in the embedding) — not a unit vector. -/
theorem C4_counterexample :
    (buildTree rayDiag [sHalf]).branches = [ChildRay.new ⟨3, 4⟩ none 0.5] ∧
      refractedSine rayDiag sHalf = 8 / 5 ∧ (1 : ℝ) < 8 / 5 :=
  ⟨branches_rayDiag_sHalf, refractedSine_rayDiag_sHalf, by norm_num⟩

/-- C4 amended: every sampled root ray has direction of length exactly
`1`, and every refracted child ray that carries a (non-NaN) direction has
direction of length exactly `1`; when the refracted sine is outside
`[-1, 1]` the child's direction is NaN instead (see the counterexample). -/
theorem C4_unit_direction :
    (∀ r ∈ rootRays, r.l.len = 1) ∧
      ∀ (ray : Ray) (surfaces : List Surface), ∀ c ∈ (buildTree ray surfaces).branches,
        ∀ dir, c.l = some dir → dir.len = 1 := by
  constructor
  · intro r hr
    rw [(mem_rootRays hr).1]
    exact beam_direction_len
  · intro ray surfaces c hc dir hdir
    obtain ⟨s, d, -, -, hcdef⟩ := mem_branches hc
    rw [hcdef] at hdir
    exact childOf_l_unit hdir

/-- C4 witness: the direction of the concrete refracted branch of the
`ray0` two-glass tree has length `1`. -/
theorem C4_unit_direction_witness : Vec2.len ⟨1, 0⟩ = 1 :=
  C4_unit_direction.2 ray0 [sGlass2, sGlass4] (ChildRay.new ⟨2, 0⟩ (some ⟨1, 0⟩) 1.5)
    (by rw [branches_ray0_chain]; exact List.mem_singleton.mpr rfl) ⟨1, 0⟩ rfl

/-- C5 counterexample: for `rayDown` striking `sTwo` the code's refracted
sine is the signed value `-0.4`, while the claimed value
`|perp(n)·l| · (ray.index / surface.index)` is `+0.4`; they differ. -/
theorem C5_counterexample :
    findHit rayDown [sTwo] = some (sTwo, 5) ∧
      refractedSine rayDown sTwo = -(2 / 5) ∧
      |(orientedNormal sTwo rayDown).perpDot rayDown.l| * (rayDown.index / sTwo.index) =
        2 / 5 ∧
      refractedSine rayDown sTwo ≠
        |(orientedNormal sTwo rayDown).perpDot rayDown.l| * (rayDown.index / sTwo.index) := by
  have habs : |(orientedNormal sTwo rayDown).perpDot rayDown.l| *
      (rayDown.index / sTwo.index) = 2 / 5 := by
    rw [orientedNormal_eq]
    norm_num [Vec2.perpDot, rayDown, sTwo, Ray.new, abs_of_nonneg]
  refine ⟨findHit_rayDown_sTwo, refractedSine_rayDown_sTwo, habs, ?_⟩
  rw [refractedSine_rayDown_sTwo, habs]
  norm_num

/-- C5 amended: when a non-absorbing surface is hit, the refracted sine is
the *signed* value `ray.index · (perp(n)·l) / surface.index` (no absolute
value is taken), the produced child starts at the hit point
`ray.p + d • ray.l` with `index = surface.index`, and whenever the
refracted sine lies in `[-1, 1]` its direction is unit-normalized. -/
theorem C5_refraction (ray : Ray) (surfaces : List Surface) (s : Surface) (d : ℝ)
    (hfind : findHit ray surfaces = some (s, d)) (habs : s.absorption < 1) :
    (buildTree ray surfaces).branches = [childOf ray s d] ∧
      (childOf ray s d).p = ray.p + d • ray.l ∧
      (childOf ray s d).index = s.index ∧
      refractedSine ray s = ray.index * (orientedNormal s ray).perpDot ray.l / s.index ∧
      (|refractedSine ray s| ≤ 1 →
        ∃ dir, (childOf ray s d).l = some dir ∧ dir.len = 1) := by
  refine ⟨?_, rfl, rfl, rfl, ?_⟩
  · show raycastStep ray surfaces = _
    rw [raycastStep_of_findHit hfind, if_pos habs]
  · intro hle
    have hint := abs_le.mp hle
    have hasin : asinOpt (refractedSine ray s) =
        some (Real.arcsin (refractedSine ray s)) := by
      rw [asinOpt, if_pos ⟨hint.1, hint.2⟩]
    refine ⟨(Vec2.fromAngle (Real.arcsin (refractedSine ray s))).normalize, ?_,
      normalize_fromAngle_len _⟩
    show ((asinOpt (refractedSine ray s)).map fun θ => (Vec2.fromAngle θ).normalize) =
      some ((Vec2.fromAngle (Real.arcsin (refractedSine ray s))).normalize)
    rw [hasin]
    rfl

/-- C5 witness: for `rayDown` against `sTwo` (refracted sine `-0.4`,
within `asin`'s domain) the produced child has a unit direction. -/
theorem C5_refraction_witness :
    (buildTree rayDown [sTwo]).branches = [childOf rayDown sTwo 5] ∧
      ∃ dir, (childOf rayDown sTwo 5).l = some dir ∧ dir.len = 1 := by
  have h := C5_refraction rayDown [sTwo] sTwo 5 findHit_rayDown_sTwo
    (by norm_num [sTwo])
  exact ⟨h.1, h.2.2.2.2 (by rw [refractedSine_rayDown_sTwo]; norm_num [abs_of_nonneg])⟩

end Beams
